import Mathlib

/-!
Shallow embedding of the LstCompass dashboard sources
(`src/pages/Protocols.tsx` and `src/components/TokenCard.tsx`).

JavaScript numbers are modelled as rationals (`ℚ`); absent values
(`null`/`undefined`) as `Option`; JS exceptions as `Except` with an
`Option String` payload (`some m` = an `Error` instance with message `m`,
`none` = a thrown non-`Error` value).
-/

namespace LstCompass

/-- Model of a JavaScript runtime value as far as the table's dynamic field
access needs it: numbers, strings, plain objects (association lists of
property name to value) and `undefined`. -/
inductive JsValue where
  | num (q : ℚ)
  | str (s : String)
  | obj (fields : List (String × JsValue))
  | undefined
deriving Inhabited

/-- `typeof v` being `object` for the modelled values. -/
def JsValue.isObj : JsValue → Bool
  | .obj _ => true
  | _ => false

/-- Property access `v[k]`: a present property of an object is returned,
a missing property yields `undefined`, and indexing a non-object is collapsed
to `undefined` (the source only indexes objects on the reachable paths). -/
def jsIndex (v : JsValue) (k : String) : JsValue :=
  match v with
  | .obj fields =>
    match fields.lookup k with
    | some x => x
    | none => .undefined
  | _ => .undefined

/-- JS abstract relational comparison `a < b` restricted to the value shapes
the comparator can see: numbers compare numerically, strings
lexicographically, and any comparison involving `undefined` (which coerces to
NaN) or an object is `false`. -/
def jsLt : JsValue → JsValue → Bool
  | .num a, .num b => a < b
  | .str a, .str b => a < b
  | _, _ => false

/-- Nested `fees` group of a transformed `Protocol`
(JSON keys `24h`, `7d`, `30d`, `monthlyAvg1y`). -/
structure Fees where
  h24 : ℚ
  d7 : ℚ
  d30 : ℚ
  monthlyAvg1y : ℚ
deriving DecidableEq

/-- Nested `revenue` group (JSON keys `24h`, `7d`, `30d`, `1y`). -/
structure Revenue where
  h24 : ℚ
  d7 : ℚ
  d30 : ℚ
  y1 : ℚ
deriving DecidableEq

/-- Nested `holdersRevenue` group (JSON keys `24h`, `30d`). -/
structure HoldersRevenue where
  h24 : ℚ
  d30 : ℚ
deriving DecidableEq

/-- Nested `volume` group (JSON keys `24h`, `change7d`, `cumulative`). -/
structure Volume where
  h24 : ℚ
  change7d : ℚ
  cumulative : ℚ
deriving DecidableEq

/-- The `Protocol` record assembled by the table page's transform
(the `Protocol` TS interface in `Protocols.tsx`). -/
structure Protocol where
  name : String
  symbol : String
  tvl : ℚ
  tvlPrevDay : ℚ
  tvlPrevMonth : ℚ
  mcap : ℚ
  fees : Fees
  revenue : Revenue
  userFees24h : ℚ
  cumulativeFees : ℚ
  holdersRevenue : HoldersRevenue
  treasuryRevenue24h : ℚ
  supplyRevenue : ℚ
  volume : Volume
  logo : String
  category : String
  slug : String
deriving DecidableEq

/-- View of a `Protocol` record as a JS object, with the JSON property names
used by the source (`"fees"` holding an object with key `"24h"`, and so on). -/
def Protocol.toJs (p : Protocol) : JsValue :=
  .obj [
    ("name", .str p.name),
    ("symbol", .str p.symbol),
    ("tvl", .num p.tvl),
    ("tvlPrevDay", .num p.tvlPrevDay),
    ("tvlPrevMonth", .num p.tvlPrevMonth),
    ("mcap", .num p.mcap),
    ("fees", .obj [
      ("24h", .num p.fees.h24),
      ("7d", .num p.fees.d7),
      ("30d", .num p.fees.d30),
      ("monthlyAvg1y", .num p.fees.monthlyAvg1y)]),
    ("revenue", .obj [
      ("24h", .num p.revenue.h24),
      ("7d", .num p.revenue.d7),
      ("30d", .num p.revenue.d30),
      ("1y", .num p.revenue.y1)]),
    ("userFees24h", .num p.userFees24h),
    ("cumulativeFees", .num p.cumulativeFees),
    ("holdersRevenue", .obj [
      ("24h", .num p.holdersRevenue.h24),
      ("30d", .num p.holdersRevenue.d30)]),
    ("treasuryRevenue24h", .num p.treasuryRevenue24h),
    ("supplyRevenue", .num p.supplyRevenue),
    ("volume", .obj [
      ("24h", .num p.volume.h24),
      ("change7d", .num p.volume.change7d),
      ("cumulative", .num p.volume.cumulative)]),
    ("logo", .str p.logo),
    ("category", .str p.category),
    ("slug", .str p.slug)]

/-- Sort direction of the table's sort configuration. -/
inductive Direction where
  | asc
  | desc
deriving DecidableEq

/-- The table page's `sortConfig` state: `{ key, direction }`. -/
structure SortConfig where
  key : String
  direction : Direction
deriving DecidableEq

/-- Resolution of a row's sort value inside the comparator of
`getSortedProtocols`: first the direct index `a[sortConfig.key]`; only when
that direct value is typed `object` does the code split the key
on `.` and walk the graph with `keys.reduce((obj, key) => obj[key], a)`. -/
def resolveSortValue (p : Protocol) (key : String) : JsValue :=
  let direct := jsIndex p.toJs key
  if direct.isObj then (key.splitOn ".").foldl jsIndex p.toJs
  else direct

/-- The comparator passed to `.sort` in `getSortedProtocols`: resolves both
sort values, then returns `aValue > bValue ? 1 : -1` for ascending and
`aValue < bValue ? 1 : -1` for descending (JS `a > b` is the relational
comparison `b < a`). -/
def compareRows (cfg : SortConfig) (a b : Protocol) : Int :=
  let aValue := resolveSortValue a cfg.key
  let bValue := resolveSortValue b cfg.key
  if cfg.direction = .asc then
    if jsLt bValue aValue then 1 else -1
  else
    if jsLt aValue bValue then 1 else -1

/-- `getSortedProtocols` on the stored list: `[...protocols]` copies the
array and `.sort` orders the copy by the comparator; modelled as a stable
merge sort keeping `a` before `b` whenever the comparator is non-positive. -/
def getSortedProtocols (cfg : SortConfig) (protocols : List Protocol) :
    List Protocol :=
  protocols.mergeSort (fun a b => compareRows cfg a b ≤ 0)

/-- `sortData(key)`: the functional state update applied to the previous
sort configuration when a column header is clicked. -/
def sortData (key : String) (prevConfig : SortConfig) : SortConfig :=
  { key := key
    direction :=
      if prevConfig.key = key ∧ prevConfig.direction = .desc then .asc
      else .desc }

/-- The initial sort configuration: key `"tvl"`, direction `desc`. -/
def initialSortConfig : SortConfig := { key := "tvl", direction := .desc }

/-- `calculateTvlChange(current, previous)`: `0` when `previous` is falsy,
else `((current - previous) / previous) * 100`. -/
def calculateTvlChange (current previous : ℚ) : ℚ :=
  if previous = 0 then 0 else ((current - previous) / previous) * 100

/-- Decimal digits of `n` padded on the left with `'0'` up to width `d`. -/
def padDigits (d : Nat) (n : Nat) : String :=
  let s := toString n
  String.mk (List.replicate (d - s.length) '0') ++ s

/-- Nearest integer to a nonnegative rational, ties rounded up:
`⌊y + 1/2⌋` computed on the reduced numerator and denominator. -/
def roundHalfUp (y : ℚ) : Nat :=
  (2 * y.num.toNat + y.den) / (2 * y.den)

/-- `Number.prototype.toFixed(d)` on an exact rational, following the
ECMAScript algorithm: emit `"-"` and negate when the value is negative, then
pick the integer `n` with `n / 10^d` closest to the (now nonnegative) value,
ties toward the larger `n`, and print it with `d` digits after the point. -/
def toFixed (d : Nat) (q : ℚ) : String :=
  let sign := if q < 0 then "-" else ""
  let x : ℚ := if q < 0 then -q else q
  let n : Nat := roundHalfUp (x * (10 : ℚ) ^ d)
  if d = 0 then sign ++ toString n
  else sign ++ toString (n / 10 ^ d) ++ "." ++ padDigits d (n % 10 ^ d)

/-- Tag distinguishing the two branches of the table page's `formatNumber`. -/
inductive NumStyle where
  | currency
  | percentage
deriving DecidableEq

/-- `formatNumber(value, type)` of `Protocols.tsx`: percentage branch
prefixes `+` for non-negative values; currency branch scales by `B`/`M`/`K`
suffixes at thresholds `1e9`/`1e6`/`1e3`, else plain two-decimal dollars. -/
def formatNumber (value : ℚ) (style : NumStyle) : String :=
  if style = .percentage then
    (if 0 ≤ value then "+" else "") ++ toFixed 2 value ++ "%"
  else if 1000000000 ≤ value then "$" ++ toFixed 2 (value / 1000000000) ++ "B"
  else if 1000000 ≤ value then "$" ++ toFixed 2 (value / 1000000) ++ "M"
  else if 1000 ≤ value then "$" ++ toFixed 2 (value / 1000) ++ "K"
  else "$" ++ toFixed 2 value

/-- `formatCurrency(value)` of `TokenCard.tsx`: `null`/`undefined` gives
`"$0"`, otherwise the same `B`/`M`/`K` tiering as the table's currency
branch. -/
def formatCurrency (value : Option ℚ) : String :=
  match value with
  | none => "$0"
  | some v =>
    if 1000000000 ≤ v then "$" ++ toFixed 2 (v / 1000000000) ++ "B"
    else if 1000000 ≤ v then "$" ++ toFixed 2 (v / 1000000) ++ "M"
    else if 1000 ≤ v then "$" ++ toFixed 2 (v / 1000) ++ "K"
    else "$" ++ toFixed 2 v

/-- `formatPercentage(value)` of `TokenCard.tsx`: `null`/`undefined` gives
`"0%"`, otherwise a two-decimal percentage with a leading `+` for
non-negative values. -/
def formatPercentage (value : Option ℚ) : String :=
  match value with
  | none => "0%"
  | some v => (if 0 ≤ v then "+" else "") ++ toFixed 2 v ++ "%"

/-- `formatNumber(value, decimals)` of `TokenCard.tsx`: `null`/`undefined`
gives `"0"`, otherwise the fixed-decimal string. -/
def cardFormatNumber (value : Option ℚ) (decimals : Nat) : String :=
  match value with
  | none => "0"
  | some v => toFixed decimals v

/-- A staking `Platform` offer handed to the card. -/
structure Platform where
  name : String
  fee : ℚ
  minStake : ℚ
  apy : ℚ
deriving DecidableEq

/-- `sortedPlatforms` of `TokenCard.tsx`: `[...token.platforms]` copies the
array and `.sort((a, b) => a.fee - b.fee)` orders the copy ascending by fee
(stable, keeping `a` before `b` when `a.fee - b.fee ≤ 0`). -/
def sortedPlatforms (platforms : List Platform) : List Platform :=
  platforms.mergeSort (fun a b => a.fee ≤ b.fee)

/-- The expanded platform list as rendered: each platform of the sorted
order paired with its "Best Rate" badge, shown exactly when `index === 0`. -/
def renderPlatforms (platforms : List Platform) : List (Platform × Bool) :=
  (sortedPlatforms platforms).enum.map (fun e => (e.2, e.1 == 0))

/-- Element of the `https://api.llama.fi/protocols` payload, with the fields
the transform reads; fields the API may omit are `Option`. -/
structure RawProtocol where
  name : String
  symbol : Option String
  slug : String
  tvl : Option ℚ
  tvlPrevDay : Option ℚ
  tvlPrevMonth : Option ℚ
  mcap : Option ℚ
  logo : Option String
  category : String
deriving DecidableEq

/-- Element of the `protocols` array of the
`https://api.llama.fi/overview/fees` payload. -/
structure RawFees where
  name : String
  total24h : Option ℚ
  total7d : Option ℚ
  total30d : Option ℚ
  monthlyAvg1y : Option ℚ
  revenue24h : Option ℚ
  revenue7d : Option ℚ
  revenue30d : Option ℚ
  revenue1y : Option ℚ
  userFees24h : Option ℚ
  cumulativeFees : Option ℚ
  holdersRevenue24h : Option ℚ
  holdersRevenue30d : Option ℚ
  treasuryRevenue24h : Option ℚ
  supplyRevenue : Option ℚ
  volume24h : Option ℚ
  volumeChange7d : Option ℚ
  cumulativeVolume : Option ℚ
deriving DecidableEq

/-- The fees payload object; the transform reads its `protocols` array. -/
structure FeesPayload where
  protocols : List RawFees
deriving DecidableEq

/-- JS `x || 0` on a possibly-absent number: an absent field (and a present
zero) yields `0`, any other number is kept. -/
def orZero (value : Option ℚ) : ℚ := value.getD 0

/-- JS `x || ''` on a possibly-absent string. -/
def orEmpty (value : Option String) : String := value.getD ""

/-- The record `feesMap.get(...) || {}` produces when the lookup misses:
an empty object, every field access on it yielding `undefined`. -/
def emptyFees : RawFees :=
  { name := ""
    total24h := none, total7d := none, total30d := none, monthlyAvg1y := none
    revenue24h := none, revenue7d := none, revenue30d := none
    revenue1y := none
    userFees24h := none, cumulativeFees := none
    holdersRevenue24h := none, holdersRevenue30d := none
    treasuryRevenue24h := none, supplyRevenue := none
    volume24h := none, volumeChange7d := none, cumulativeVolume := none }

/-- Lookup in a JS `Map` built with `new Map(entries)`: for duplicate keys
the last entry wins. -/
def mapGet (entries : List (String × RawFees)) (key : String) :
    Option RawFees :=
  entries.reverse.lookup key

/-- The `feesMap` of the fetch cycle:
`new Map(feesData.protocols.map(p => [p.name.toLowerCase(), p]))`. -/
def feesMap (feesData : FeesPayload) : List (String × RawFees) :=
  feesData.protocols.map (fun p => (p.name.toLower, p))

/-- Body of the `.map` in the fetch cycle: assemble one `Protocol` record
from a raw protocol `p` and its `feesInfo` record, defaulting every
possibly-absent numeric field with `|| 0`. -/
def buildProtocol (p : RawProtocol) (feesInfo : RawFees) : Protocol :=
  { name := p.name
    symbol := orEmpty p.symbol
    slug := p.slug
    tvl := orZero p.tvl
    tvlPrevDay := orZero p.tvlPrevDay
    tvlPrevMonth := orZero p.tvlPrevMonth
    mcap := orZero p.mcap
    fees :=
      { h24 := orZero feesInfo.total24h
        d7 := orZero feesInfo.total7d
        d30 := orZero feesInfo.total30d
        monthlyAvg1y := orZero feesInfo.monthlyAvg1y }
    revenue :=
      { h24 := orZero feesInfo.revenue24h
        d7 := orZero feesInfo.revenue7d
        d30 := orZero feesInfo.revenue30d
        y1 := orZero feesInfo.revenue1y }
    userFees24h := orZero feesInfo.userFees24h
    cumulativeFees := orZero feesInfo.cumulativeFees
    holdersRevenue :=
      { h24 := orZero feesInfo.holdersRevenue24h
        d30 := orZero feesInfo.holdersRevenue30d }
    treasuryRevenue24h := orZero feesInfo.treasuryRevenue24h
    supplyRevenue := orZero feesInfo.supplyRevenue
    volume :=
      { h24 := orZero feesInfo.volume24h
        change7d := orZero feesInfo.volumeChange7d
        cumulative := orZero feesInfo.cumulativeVolume }
    logo := orEmpty p.logo
    category := p.category }

/-- Merge step for one retained protocol:
`const feesInfo = feesMap.get(p.name.toLowerCase()) || {}` then the record
assembly. -/
def mergeOne (feesData : FeesPayload) (p : RawProtocol) : Protocol :=
  buildProtocol p ((mapGet (feesMap feesData) p.name.toLower).getD emptyFees)

/-- The `liquidStakingProtocols` transform: filter the protocols payload to
category `"Liquid Staking"` and map each retained protocol through the
merge step. -/
def transform (protocolsData : List RawProtocol) (feesData : FeesPayload) :
    List Protocol :=
  (protocolsData.filter (fun p => p.category = "Liquid Staking")).map
    (mergeOne feesData)

/-- A JS exception: `some m` is an `Error` instance with message `m`,
`none` a thrown non-`Error` value. -/
abbrev JsError := Option String

/-- A fetch `Response` as far as the page reads it: the `ok` flag and the
result of `await response.json()` (which may itself throw). -/
structure Response (α : Type) where
  ok : Bool
  body : Except JsError α

/-- Outcome of one `fetch(...)`: the promise either resolves to a response
or rejects with an exception. -/
abbrev FetchOutcome (α : Type) := Except JsError (Response α)

/-- The `try` block of `fetchProtocolsData`: await both fetches
(`Promise.all` rethrows the first rejection, the protocols fetch being
first), throw an `Error` carrying `"Failed to fetch protocol data"` unless both
responses are `ok`, await both `json()` decodes (each may throw), and
transform. Every `.error` arm rethrows the exception to the `catch`. -/
def fetchStep (protocolsFetch : FetchOutcome (List RawProtocol))
    (feesFetch : FetchOutcome FeesPayload) :
    Except JsError (List Protocol) :=
  match protocolsFetch with
  | .error e => .error e
  | .ok protocolsResponse =>
    match feesFetch with
    | .error e => .error e
    | .ok feesResponse =>
      if !(protocolsResponse.ok && feesResponse.ok) then
        .error (some "Failed to fetch protocol data")
      else
        match protocolsResponse.body with
        | .error e => .error e
        | .ok protocolsData =>
          match feesResponse.body with
          | .error e => .error e
          | .ok feesData => .ok (transform protocolsData feesData)

/-- The table page's component state. -/
structure PageState where
  protocols : List Protocol
  loading : Bool
  error : Option String
  sortConfig : SortConfig
deriving DecidableEq

/-- The state on mount: empty list, `loading`, no error, sort by
`tvl` descending. -/
def initialState : PageState :=
  { protocols := [], loading := true, error := none
    sortConfig := initialSortConfig }

/-- One whole `fetchProtocolsData` cycle applied to the component state: on
success `setProtocols` then `setLoading(false)`; in the `catch` branch
`setError` with the message of the exception when it is an `Error`
instance, else the fixed `"Failed to fetch protocol data"`, then
`setLoading(false)`. -/
def fetchCycle (s : PageState) (protocolsFetch : FetchOutcome (List RawProtocol))
    (feesFetch : FetchOutcome FeesPayload) : PageState :=
  match fetchStep protocolsFetch feesFetch with
  | .ok liquidStakingProtocols =>
    { s with protocols := liquidStakingProtocols, loading := false }
  | .error err =>
    { s with
        error := some (err.getD "Failed to fetch protocol data")
        loading := false }

/-- The table body's row derivation as a read-only use of the state: the
spread `[...protocols]` copies the stored array before `.sort`, so rendering
returns the derived order next to the untouched state. -/
def renderTableRows (s : PageState) : List Protocol × PageState :=
  (getSortedProtocols s.sortConfig s.protocols, s)

/-- The `StakingToken` card input, with the fields `TokenCard.tsx` reads;
numeric fields may be absent and are defensively formatted. -/
structure StakingToken where
  name : String
  symbol : String
  image : String
  marketCapRank : Option ℚ
  price : Option ℚ
  priceChangePercentage24h : Option ℚ
  tvl : Option ℚ
  tvlChange1d : Option ℚ
  volume24h : Option ℚ
  volumeChange7d : Option ℚ
  revenue24h : Option ℚ
  priceToSales : Option ℚ
  fees24h : Option ℚ
  priceToFees : Option ℚ
  platforms : List Platform

/-- The card's platform-panel derivation as a read-only use of its input:
`[...token.platforms]` copies the array before `.sort`, so rendering returns
the derived panel next to the untouched token. -/
def renderCardPlatforms (token : StakingToken) :
    List (Platform × Bool) × StakingToken :=
  (renderPlatforms token.platforms, token)

/-- Concrete `Protocol` record with the given name, TVL and 24h fees, used
to instantiate universally quantified statements. -/
def sampleProtocol (n : String) (t f : ℚ) : Protocol :=
  ⟨n, "SYM", t, 0, 0, 0, ⟨f, 0, 0, 0⟩, ⟨0, 0, 0, 0⟩, 0, 0, ⟨0, 0⟩, 0, 0,
    ⟨0, 0, 0⟩, "", "Liquid Staking", n⟩

/-! ## Theorems -/

/-- Sanity check for the rounding used by `toFixed`: on nonnegative inputs
it is exactly `⌊y + 1/2⌋`, the closest integer with ties upward. -/
theorem roundHalfUp_eq_floor (y : ℚ) (h : 0 ≤ y) :
    (roundHalfUp y : ℤ) = ⌊y + 1 / 2⌋ := by
  have hnum : 0 ≤ y.num := Rat.num_nonneg.mpr h
  have hden : (y.den : ℚ) ≠ 0 := Nat.cast_ne_zero.mpr y.den_nz
  have hy : y + 1 / 2 = ((2 * y.num + (y.den : ℤ) : ℤ) : ℚ) / ((2 * y.den : ℕ) : ℚ) := by
    nth_rewrite 1 [← Rat.num_div_den y]
    push_cast
    field_simp
    ring
  rw [hy, Rat.floor_intCast_div_natCast, roundHalfUp, Int.ofNat_tdiv]
  push_cast [Int.toNat_of_nonneg hnum]
  rw [Int.tdiv_eq_ediv (by positivity) (by positivity)]

/-- A value is never relationally below itself in the modelled JS
comparison. -/
theorem jsLt_self_eq_false (v : JsValue) : jsLt v v = false := by
  cases v with
  | num q => simp [jsLt]
  | str s => simp [jsLt, String.lt_irrefl s]
  | obj fields => rfl
  | undefined => rfl

/-- A name absent from every entry of the fees map is not found by the
map lookup. -/
theorem mapGet_missing (feesData : FeesPayload) (name : String)
    (habs : ∀ q ∈ feesData.protocols, q.name.toLower ≠ name) :
    mapGet (feesMap feesData) name = none := by
  rw [mapGet, List.lookup_eq_none_iff]
  intro e he
  rw [List.mem_reverse, feesMap] at he
  obtain ⟨q, hq, rfl⟩ := List.mem_map.mp he
  exact bne_iff_ne.mpr (Ne.symm (habs q hq))

/-- C1: contrary to the claim, the comparator does not resolve dotted sort
keys through the nested object graph. Indexing a `Protocol` with the literal
key `"fees.24h"` (or `"revenue.24h"`) yields `undefined`, whose `typeof` is
not `object`, so the split-and-walk branch is never entered; both sort
values resolve to `undefined`, every comparison returns `-1` in both
argument orders and both directions regardless of the fee and revenue
values, and the modelled stable sort leaves the list in its stored order. -/
theorem dotted_key_sort_is_inert (a b : Protocol) (ps : List Protocol) :
    resolveSortValue a "fees.24h" = JsValue.undefined ∧
    resolveSortValue a "revenue.24h" = JsValue.undefined ∧
    compareRows ⟨"fees.24h", .desc⟩ a b = -1 ∧
    compareRows ⟨"fees.24h", .asc⟩ a b = -1 ∧
    compareRows ⟨"revenue.24h", .desc⟩ a b = -1 ∧
    compareRows ⟨"revenue.24h", .asc⟩ a b = -1 ∧
    getSortedProtocols ⟨"fees.24h", .desc⟩ ps = ps ∧
    getSortedProtocols ⟨"revenue.24h", .desc⟩ ps = ps := by
  refine ⟨rfl, rfl, rfl, rfl, rfl, rfl, ?_, ?_⟩ <;>
    exact List.mergeSort_of_sorted (List.pairwise_of_forall (fun x y => rfl))

/-- C2: when either response is not `ok`, or any fetch or decode step
throws, the mount ends in the error state: `loading` is cleared, `error`
holds the message of the thrown `Error` when available and the fixed
`"Failed to fetch protocol data"` otherwise, and the protocol list is still
the initial empty list — no partial result is ever stored. A non-`ok` status
in particular produces exactly the fixed message. -/
theorem fetch_failure_state (protocolsFetch : FetchOutcome (List RawProtocol))
    (feesFetch : FetchOutcome FeesPayload) (e : JsError)
    (h : fetchStep protocolsFetch feesFetch = .error e) :
    fetchCycle initialState protocolsFetch feesFetch
      = { protocols := []
          loading := false
          error := some (e.getD "Failed to fetch protocol data")
          sortConfig := initialSortConfig } ∧
    (∀ r1 r2, protocolsFetch = .ok r1 → feesFetch = .ok r2 →
      r1.ok = false ∨ r2.ok = false →
      e = some "Failed to fetch protocol data") := by
  constructor
  · rw [fetchCycle, h]
    rfl
  · intro r1 r2 h1 h2 hok
    subst h1
    subst h2
    have hstep : fetchStep (.ok r1) (.ok r2)
        = .error (some "Failed to fetch protocol data") := by
      rcases hok with h' | h' <;> simp [fetchStep, h']
    rw [h] at hstep
    exact Except.error.inj hstep

/-- Witness for C2: a non-`ok` protocols response next to an `ok` fees
response yields the error state with the fixed message and an empty list. -/
theorem fetch_failure_state_witness :
    fetchCycle initialState (Except.ok ⟨false, Except.ok []⟩)
        (Except.ok ⟨true, Except.ok ⟨[]⟩⟩)
      = { protocols := []
          loading := false
          error := some "Failed to fetch protocol data"
          sortConfig := initialSortConfig } ∧
    (some "Failed to fetch protocol data" : JsError)
      = some "Failed to fetch protocol data" :=
  ⟨(fetch_failure_state (Except.ok ⟨false, Except.ok []⟩)
      (Except.ok ⟨true, Except.ok ⟨[]⟩⟩)
      (some "Failed to fetch protocol data") rfl).1,
   (fetch_failure_state (Except.ok ⟨false, Except.ok []⟩)
      (Except.ok ⟨true, Except.ok ⟨[]⟩⟩)
      (some "Failed to fetch protocol data") rfl).2 _ _ rfl rfl (Or.inl rfl)⟩

/-- C3: a protocol retained by the category filter whose lowercased name is
absent from the fee and revenue lookup produces a full `Protocol` record in
the transform output (not a missing record), with every fee, revenue,
holders-revenue, volume, `userFees24h`, `cumulativeFees`,
`treasuryRevenue24h` and `supplyRevenue` sub-field equal to `0`; and in
general every numeric sub-field sourced from an absent raw field defaults
to `0`. -/
theorem merge_missing_defaults (p : RawProtocol)
    (protocolsData : List RawProtocol) (feesData : FeesPayload)
    (hmem : p ∈ protocolsData) (hcat : p.category = "Liquid Staking")
    (habs : ∀ q ∈ feesData.protocols, q.name.toLower ≠ p.name.toLower) :
    mergeOne feesData p ∈ transform protocolsData feesData ∧
    (mergeOne feesData p).fees = ⟨0, 0, 0, 0⟩ ∧
    (mergeOne feesData p).revenue = ⟨0, 0, 0, 0⟩ ∧
    (mergeOne feesData p).holdersRevenue = ⟨0, 0⟩ ∧
    (mergeOne feesData p).volume = ⟨0, 0, 0⟩ ∧
    (mergeOne feesData p).userFees24h = 0 ∧
    (mergeOne feesData p).cumulativeFees = 0 ∧
    (mergeOne feesData p).treasuryRevenue24h = 0 ∧
    (mergeOne feesData p).supplyRevenue = 0 ∧
    (∀ (q : RawProtocol) (fi : RawFees),
      (q.tvl = none → (buildProtocol q fi).tvl = 0) ∧
      (q.tvlPrevDay = none → (buildProtocol q fi).tvlPrevDay = 0) ∧
      (q.tvlPrevMonth = none → (buildProtocol q fi).tvlPrevMonth = 0) ∧
      (q.mcap = none → (buildProtocol q fi).mcap = 0) ∧
      (fi.total24h = none → (buildProtocol q fi).fees.h24 = 0) ∧
      (fi.total7d = none → (buildProtocol q fi).fees.d7 = 0) ∧
      (fi.total30d = none → (buildProtocol q fi).fees.d30 = 0) ∧
      (fi.monthlyAvg1y = none → (buildProtocol q fi).fees.monthlyAvg1y = 0) ∧
      (fi.revenue24h = none → (buildProtocol q fi).revenue.h24 = 0) ∧
      (fi.revenue7d = none → (buildProtocol q fi).revenue.d7 = 0) ∧
      (fi.revenue30d = none → (buildProtocol q fi).revenue.d30 = 0) ∧
      (fi.revenue1y = none → (buildProtocol q fi).revenue.y1 = 0) ∧
      (fi.userFees24h = none → (buildProtocol q fi).userFees24h = 0) ∧
      (fi.cumulativeFees = none → (buildProtocol q fi).cumulativeFees = 0) ∧
      (fi.holdersRevenue24h = none → (buildProtocol q fi).holdersRevenue.h24 = 0) ∧
      (fi.holdersRevenue30d = none → (buildProtocol q fi).holdersRevenue.d30 = 0) ∧
      (fi.treasuryRevenue24h = none → (buildProtocol q fi).treasuryRevenue24h = 0) ∧
      (fi.supplyRevenue = none → (buildProtocol q fi).supplyRevenue = 0) ∧
      (fi.volume24h = none → (buildProtocol q fi).volume.h24 = 0) ∧
      (fi.volumeChange7d = none → (buildProtocol q fi).volume.change7d = 0) ∧
      (fi.cumulativeVolume = none → (buildProtocol q fi).volume.cumulative = 0)) := by
  have hmiss : mergeOne feesData p = buildProtocol p emptyFees := by
    rw [mergeOne, mapGet_missing feesData p.name.toLower habs]
    rfl
  refine ⟨?_, ?_, ?_, ?_, ?_, ?_, ?_, ?_, ?_, fun q fi =>
    ⟨
        fun h => by simp [buildProtocol, orZero, h],
        fun h => by simp [buildProtocol, orZero, h],
        fun h => by simp [buildProtocol, orZero, h],
        fun h => by simp [buildProtocol, orZero, h],
        fun h => by simp [buildProtocol, orZero, h],
        fun h => by simp [buildProtocol, orZero, h],
        fun h => by simp [buildProtocol, orZero, h],
        fun h => by simp [buildProtocol, orZero, h],
        fun h => by simp [buildProtocol, orZero, h],
        fun h => by simp [buildProtocol, orZero, h],
        fun h => by simp [buildProtocol, orZero, h],
        fun h => by simp [buildProtocol, orZero, h],
        fun h => by simp [buildProtocol, orZero, h],
        fun h => by simp [buildProtocol, orZero, h],
        fun h => by simp [buildProtocol, orZero, h],
        fun h => by simp [buildProtocol, orZero, h],
        fun h => by simp [buildProtocol, orZero, h],
        fun h => by simp [buildProtocol, orZero, h],
        fun h => by simp [buildProtocol, orZero, h],
        fun h => by simp [buildProtocol, orZero, h],
        fun h => by simp [buildProtocol, orZero, h]⟩⟩
  · exact List.mem_map_of_mem (mergeOne feesData)
      (List.mem_filter.mpr ⟨hmem, by simp [hcat]⟩)
  all_goals rw [hmiss]; rfl

/-- Witness for C3: a concrete liquid-staking protocol whose name misses
the single entry of the fees payload gets an all-zero fees group and is
still present in the transform output. -/
theorem merge_missing_defaults_witness :
    mergeOne ⟨[{ emptyFees with name := "Other Protocol" }]⟩
        ⟨"Lido", none, "lido", none, none, none, none, none, "Liquid Staking"⟩
      ∈ transform
        [⟨"Lido", none, "lido", none, none, none, none, none, "Liquid Staking"⟩]
        ⟨[{ emptyFees with name := "Other Protocol" }]⟩ ∧
    (mergeOne ⟨[{ emptyFees with name := "Other Protocol" }]⟩
        ⟨"Lido", none, "lido", none, none, none, none, none,
          "Liquid Staking"⟩).fees = ⟨0, 0, 0, 0⟩ :=
  ⟨(merge_missing_defaults _ _ _ (List.mem_singleton.mpr rfl) rfl
      (by with_unfolding_all decide)).1,
   (merge_missing_defaults _ _ _ (List.mem_singleton.mpr rfl) rfl
      (by with_unfolding_all decide)).2.1⟩

/-- C4: clicking a header whose key equals the current key while the
direction is `desc` flips to `asc`; any other click sets `desc` on the
clicked key; two clicks on the TVL header from the initial configuration
restore the initial configuration, hence the derived list equals the
original descending-by-TVL derivation, which is indeed pairwise descending
in TVL. -/
theorem sortData_toggle (key : String) (prevConfig : SortConfig)
    (ps : List Protocol) :
    (prevConfig.key = key → prevConfig.direction = .desc →
      sortData key prevConfig = ⟨key, .asc⟩) ∧
    (prevConfig.key ≠ key ∨ prevConfig.direction ≠ .desc →
      sortData key prevConfig = ⟨key, .desc⟩) ∧
    sortData "tvl" (sortData "tvl" initialSortConfig) = initialSortConfig ∧
    getSortedProtocols (sortData "tvl" (sortData "tvl" initialSortConfig)) ps
      = getSortedProtocols initialSortConfig ps ∧
    List.Pairwise (fun a b => b.tvl ≤ a.tvl)
      (getSortedProtocols initialSortConfig ps) := by
  have hle : ∀ a b : Protocol,
      decide (compareRows initialSortConfig a b ≤ 0) = true ↔ b.tvl ≤ a.tvl := by
    intro a b
    have h : compareRows initialSortConfig a b
        = if (decide (a.tvl < b.tvl) : Bool) then 1 else -1 := rfl
    rw [h]
    by_cases hab : a.tvl < b.tvl
    · simp [hab, not_le.mpr hab]
    · simp [hab, not_lt.mp hab]
  refine ⟨fun h1 h2 => ?_, fun h => ?_, by decide, ?_, ?_⟩
  · rw [sortData, if_pos ⟨h1, h2⟩]
  · rw [sortData, if_neg ?_]
    rcases h with h | h <;> exact fun hc => h (by simp [hc.1, hc.2])
  · have h2 : sortData "tvl" (sortData "tvl" initialSortConfig)
        = initialSortConfig := by decide
    rw [h2]
  · have := @List.sorted_mergeSort Protocol
      (fun a b => decide (compareRows initialSortConfig a b ≤ 0))
      (fun a b c hab hbc => by
        rw [hle] at hab hbc ⊢
        exact hbc.trans hab)
      (fun a b => by
        rcases le_total b.tvl a.tvl with h | h
        · simp [(hle a b).mpr h]
        · simp [(hle b a).mpr h])
      ps
    exact this.imp (fun hab => (hle _ _).mp (by exact hab))

/-- Witness for C4: a click on the TVL header in the initial descending
state flips to ascending, and a click on the fees header out of the
ascending TVL state resets to descending on the fees key. -/
theorem sortData_toggle_witness :
    sortData "tvl" ⟨"tvl", .desc⟩ = ⟨"tvl", Direction.asc⟩ ∧
    sortData "fees.24h" ⟨"tvl", .asc⟩ = ⟨"fees.24h", Direction.desc⟩ :=
  ⟨(sortData_toggle "tvl" ⟨"tvl", .desc⟩ []).1 rfl rfl,
   (sortData_toggle "fees.24h" ⟨"tvl", .asc⟩ []).2.1 (Or.inl (by decide))⟩

/-- C5: the derived 24h TVL change is the relative change times 100 when
the previous value is nonzero and exactly 0 when it is zero (the division
is never executed), and the pair tvl = 110, previous = 100 yields 10,
rendered as `"+10.00%"`. -/
theorem tvlChange_spec (current previous : ℚ) :
    (previous ≠ 0 → calculateTvlChange current previous
        = (current - previous) / previous * 100) ∧
    (previous = 0 → calculateTvlChange current previous = 0) ∧
    calculateTvlChange 110 100 = 10 ∧
    formatNumber (calculateTvlChange 110 100) .percentage = "+10.00%" := by
  refine ⟨fun h => by rw [calculateTvlChange, if_neg h],
    fun h => by rw [calculateTvlChange, if_pos h], ?_, ?_⟩
  · rw [calculateTvlChange]
    norm_num
  · with_unfolding_all rfl

/-- Witness for C5: the change formula at previous = 2 and the zero guard
at previous = 0. -/
theorem tvlChange_witness :
    calculateTvlChange 3 2 = (3 - 2) / 2 * 100 ∧ calculateTvlChange 5 0 = 0 :=
  ⟨(tvlChange_spec 3 2).1 (by norm_num), (tvlChange_spec 5 0).2.1 rfl⟩

/-- C6: `formatCurrency` maps `null` and `undefined` to `"$0"` and
otherwise selects the `B`, `M`, `K` or plain tier by thresholds at exactly
`1e9`, `1e6` and `1e3`, scaling and printing two decimals. -/
theorem formatCurrency_spec (v : ℚ) :
    formatCurrency none = "$0" ∧
    (1000000000 ≤ v →
      formatCurrency (some v) = "$" ++ toFixed 2 (v / 1000000000) ++ "B") ∧
    (1000000 ≤ v → v < 1000000000 →
      formatCurrency (some v) = "$" ++ toFixed 2 (v / 1000000) ++ "M") ∧
    (1000 ≤ v → v < 1000000 →
      formatCurrency (some v) = "$" ++ toFixed 2 (v / 1000) ++ "K") ∧
    (v < 1000 → formatCurrency (some v) = "$" ++ toFixed 2 v) := by
  refine ⟨rfl, fun h => ?_, fun h1 h2 => ?_, fun h1 h2 => ?_, fun h => ?_⟩
  · rw [formatCurrency, if_pos h]
  · rw [formatCurrency, if_neg (not_le.mpr h2), if_pos h1]
  · rw [formatCurrency, if_neg (not_le.mpr (h2.trans (by norm_num))),
      if_neg (not_le.mpr h2), if_pos h1]
  · rw [formatCurrency, if_neg (not_le.mpr (h.trans (by norm_num))),
      if_neg (not_le.mpr (h.trans (by norm_num))), if_neg (not_le.mpr h)]

/-- Witness for C6: one input in each tier. -/
theorem formatCurrency_witness :
    formatCurrency (some 2500000000)
      = "$" ++ toFixed 2 (2500000000 / 1000000000) ++ "B" ∧
    formatCurrency (some 3500000) = "$" ++ toFixed 2 (3500000 / 1000000) ++ "M" ∧
    formatCurrency (some 1000) = "$" ++ toFixed 2 (1000 / 1000) ++ "K" ∧
    formatCurrency (some 999) = "$" ++ toFixed 2 999 :=
  ⟨(formatCurrency_spec 2500000000).2.1 (by norm_num),
   (formatCurrency_spec 3500000).2.2.1 (by norm_num) (by norm_num),
   (formatCurrency_spec 1000).2.2.2.1 (by norm_num) (by norm_num),
   (formatCurrency_spec 999).2.2.2.2 (by norm_num)⟩

/-- C7: `formatPercentage` maps `null` and `undefined` to `"0%"` and any
number to its two-decimal percentage, with a leading `+` exactly for
non-negative values; in particular `0` gives `"+0.00%"` and `-5.5` gives
`"-5.50%"`. -/
theorem formatPercentage_spec (v : ℚ) :
    formatPercentage none = "0%" ∧
    (0 ≤ v → formatPercentage (some v) = "+" ++ toFixed 2 v ++ "%") ∧
    (v < 0 → formatPercentage (some v) = toFixed 2 v ++ "%") ∧
    formatPercentage (some 0) = "+0.00%" ∧
    formatPercentage (some (-(11 / 2))) = "-5.50%" := by
  refine ⟨rfl, fun h => ?_, fun h => ?_, ?_, ?_⟩
  · rw [formatPercentage, if_pos h]
  · rw [formatPercentage, if_neg (not_le.mpr h)]
    simp
  · with_unfolding_all rfl
  · with_unfolding_all rfl

/-- Witness for C7: the signed and unsigned branches at 7 and -7. -/
theorem formatPercentage_witness :
    formatPercentage (some 7) = "+" ++ toFixed 2 7 ++ "%" ∧
    formatPercentage (some (-7)) = toFixed 2 (-7) ++ "%" :=
  ⟨(formatPercentage_spec 7).2.1 (by norm_num),
   (formatPercentage_spec (-7)).2.2.1 (by norm_num)⟩

/-- C8: for every platform list the rendered panel is the list sorted
ascending by fee, and exactly the first entry of the sorted order carries
the Best Rate badge; fees 5, 1, 3 render in order 1, 3, 5 with only the
fee-1 entry marked. -/
theorem platform_sort_spec (platforms : List Platform) :
    (sortedPlatforms platforms).Perm platforms ∧
    List.Pairwise (fun a b => a.fee ≤ b.fee) (sortedPlatforms platforms) ∧
    (renderPlatforms platforms).map Prod.snd
      = (List.range platforms.length).map (fun i => i == 0) ∧
    sortedPlatforms [⟨"A", 5, 0, 0⟩, ⟨"B", 1, 0, 0⟩, ⟨"C", 3, 0, 0⟩]
      = [⟨"B", 1, 0, 0⟩, ⟨"C", 3, 0, 0⟩, ⟨"A", 5, 0, 0⟩] ∧
    (renderPlatforms [⟨"A", 5, 0, 0⟩, ⟨"B", 1, 0, 0⟩, ⟨"C", 3, 0, 0⟩]).map
        Prod.snd
      = [true, false, false] := by
  have hperm : (sortedPlatforms platforms).Perm platforms :=
    List.mergeSort_perm platforms _
  refine ⟨hperm, ?_, ?_, ?_, ?_⟩
  · have := @List.sorted_mergeSort Platform
      (fun a b => decide (a.fee ≤ b.fee))
      (fun a b c hab hbc => by
        simp only [decide_eq_true_eq] at hab hbc ⊢
        exact hab.trans hbc)
      (fun a b => by
        rcases le_total a.fee b.fee with h | h <;> simp [h])
      platforms
    exact this.imp (fun h => by simpa using h)
  · rw [renderPlatforms, List.map_map]
    have h : (Prod.snd ∘ fun e : Nat × Platform => (e.2, e.1 == 0))
        = (fun i => i == 0) ∘ Prod.fst := rfl
    rw [h, ← List.map_map, List.enum_map_fst, hperm.length_eq]
  · simp [sortedPlatforms, List.mergeSort, List.splitInTwo, List.merge]
    norm_num
  · simp [renderPlatforms, sortedPlatforms, List.mergeSort, List.splitInTwo,
      List.merge, List.enum, List.enumFrom]

/-- C9: the table row derivation and the card platform derivation are pure:
each returns a permutation of the stored list while the component state and
the token, including the stored element order, are unchanged. -/
theorem derivations_pure (s : PageState) (token : StakingToken) :
    (renderTableRows s).2 = s ∧
    ((renderTableRows s).1).Perm s.protocols ∧
    (renderCardPlatforms token).2 = token ∧
    ((renderCardPlatforms token).1.map Prod.fst).Perm token.platforms := by
  refine ⟨rfl, List.mergeSort_perm _ _, rfl, ?_⟩
  have h : (renderCardPlatforms token).1.map Prod.fst
      = sortedPlatforms token.platforms := by
    rw [renderCardPlatforms, renderPlatforms, List.map_map]
    have hcomp : (Prod.fst ∘ fun e : Nat × Platform => (e.2, e.1 == 0))
        = Prod.snd := rfl
    rw [hcomp, List.enum_map_snd]
  rw [h]
  exact List.mergeSort_perm _ _

/-- C10: the table comparator never returns 0: whenever the two resolved
sort values are equal it returns -1 in both argument orders (for either
direction), and for any two rows its result is nonzero, so equal-valued
rows have no comparator-determined relative order. -/
theorem comparator_equal_values (cfg : SortConfig) (a b : Protocol)
    (h : resolveSortValue a cfg.key = resolveSortValue b cfg.key) :
    compareRows cfg a b = -1 ∧ compareRows cfg b a = -1 ∧
    ∀ (c d : Protocol), compareRows cfg c d ≠ 0 := by
  refine ⟨?_, ?_, fun c d => ?_⟩
  · rw [compareRows, h, jsLt_self_eq_false]
    cases cfg.direction <;> simp
  · rw [compareRows, h, jsLt_self_eq_false]
    cases cfg.direction <;> simp
  · rw [compareRows]
    split <;> split <;> decide

/-- Witness for C10: two distinct rows with equal TVL compare as -1 in both
argument orders under the initial configuration. -/
theorem comparator_equal_values_witness :
    compareRows initialSortConfig (sampleProtocol "A" 1 2)
        (sampleProtocol "B" 1 3) = -1 ∧
    compareRows initialSortConfig (sampleProtocol "B" 1 3)
        (sampleProtocol "A" 1 2) = -1 :=
  ⟨(comparator_equal_values initialSortConfig
      (sampleProtocol "A" 1 2) (sampleProtocol "B" 1 3) rfl).1,
   (comparator_equal_values initialSortConfig
      (sampleProtocol "B" 1 3) (sampleProtocol "A" 1 2) rfl).1⟩

end LstCompass
